import Mathlib

/-!
Verification of the `clockworkgnome` Game Boy emulator core (Go sources
`cpu/cpu.go`, `memory/memory.go`) against its natural-language specification.

The Go code is shallowly embedded: machine bytes and 16-bit words are `Nat`
with explicit `% 256` / `% 65536` where the Go unsigned types wrap, the
memory-mapped bus is a structure of backing stores, and each Go function
becomes a Lean function of the same name operating on explicit state.
-/

namespace GB

/-- Functional update of an array modelled as `Nat → Nat`
    (one Go backing array of `Memory`). -/
def upd (f : Nat → Nat) (i v : Nat) : Nat → Nat :=
  fun j => if j = i then v else f j

/-- `memory.Memory`: the bus structure of `memory/memory.go`.
`rom` is the cartridge image slice; the other fields are the fixed-size
backing arrays (`vram [0x2000]byte`, `ram [0x2000]byte` shared by the
external-RAM and both work-RAM branches exactly as in the source,
`oam [0xA0]byte`, `io [0x80]byte` — called `ioRegs` here — and
`hram [0x80]byte`). -/
structure Memory where
  rom : List Nat
  vram : Nat → Nat
  ram : Nat → Nat
  oam : Nat → Nat
  ioRegs : Nat → Nat
  hram : Nat → Nat

/-- `memory.NewMemory`: Go zero-initializes every backing array. -/
def NewMemory (rom : List Nat) : Memory :=
  { rom := rom
    vram := fun _ => 0
    ram := fun _ => 0
    oam := fun _ => 0
    ioRegs := fun _ => 0
    hram := fun _ => 0 }

/-- `Memory.Read` from `memory/memory.go`. The region conditions and the
index offsets mirror the Go `switch` case by case (note the source bug:
the external-RAM branch uses `addr-0xA000`, work-RAM bank 0 uses
`addr-0xC000` and bank 1 uses `addr-0xD000`, all into the same `ram`
array). The ROM branch is `m.rom[addr]`, an unguarded slice index: here it
is totalized with `getD` and the bound is tracked by `ReadInBounds`. -/
def MRead (m : Memory) (addr : Nat) : Nat :=
  if addr ≤ 0x7FFF then m.rom.getD addr 0
  else if 0x8000 ≤ addr ∧ addr ≤ 0x9FFF then m.vram (addr - 0x8000)
  else if 0xA000 ≤ addr ∧ addr ≤ 0xBFFF then m.ram (addr - 0xA000)
  else if 0xC000 ≤ addr ∧ addr ≤ 0xCFFF then m.ram (addr - 0xC000)
  else if 0xD000 ≤ addr ∧ addr ≤ 0xDFFF then m.ram (addr - 0xD000)
  else if 0xFE00 ≤ addr ∧ addr ≤ 0xFE9F then m.oam (addr - 0xFE00)
  else if 0xFF00 ≤ addr ∧ addr ≤ 0xFF7F then m.ioRegs (addr - 0xFF00)
  else if 0xFF80 ≤ addr ∧ addr ≤ 0xFFFF then m.hram (addr - 0xFF80)
  else 0xFF

/-- The in-bounds condition of every array/slice index performed by
`Memory.Read`, branch by branch: the fixed-size Go arrays carry their
declared lengths, the ROM slice carries `len(m.rom)`. The default branch
indexes nothing. -/
def ReadInBounds (m : Memory) (addr : Nat) : Bool :=
  if addr ≤ 0x7FFF then decide (addr < m.rom.length)
  else if 0x8000 ≤ addr ∧ addr ≤ 0x9FFF then decide (addr - 0x8000 < 0x2000)
  else if 0xA000 ≤ addr ∧ addr ≤ 0xBFFF then decide (addr - 0xA000 < 0x2000)
  else if 0xC000 ≤ addr ∧ addr ≤ 0xCFFF then decide (addr - 0xC000 < 0x2000)
  else if 0xD000 ≤ addr ∧ addr ≤ 0xDFFF then decide (addr - 0xD000 < 0x2000)
  else if 0xFE00 ≤ addr ∧ addr ≤ 0xFE9F then decide (addr - 0xFE00 < 0xA0)
  else if 0xFF00 ≤ addr ∧ addr ≤ 0xFF7F then decide (addr - 0xFF00 < 0x80)
  else if 0xFF80 ≤ addr ∧ addr ≤ 0xFFFF then decide (addr - 0xFF80 < 0x80)
  else true

/-- `Memory.Write` from `memory/memory.go`. ROM writes and writes outside
every region only print a diagnostic in Go and leave the state unchanged,
so those branches return `m` itself. -/
def MWrite (m : Memory) (addr v : Nat) : Memory :=
  if addr ≤ 0x7FFF then m
  else if 0x8000 ≤ addr ∧ addr ≤ 0x9FFF then
    { m with vram := upd m.vram (addr - 0x8000) v }
  else if 0xA000 ≤ addr ∧ addr ≤ 0xBFFF then
    { m with ram := upd m.ram (addr - 0xA000) v }
  else if 0xC000 ≤ addr ∧ addr ≤ 0xCFFF then
    { m with ram := upd m.ram (addr - 0xC000) v }
  else if 0xD000 ≤ addr ∧ addr ≤ 0xDFFF then
    { m with ram := upd m.ram (addr - 0xD000) v }
  else if 0xFE00 ≤ addr ∧ addr ≤ 0xFE9F then
    { m with oam := upd m.oam (addr - 0xFE00) v }
  else if 0xFF00 ≤ addr ∧ addr ≤ 0xFF7F then
    { m with ioRegs := upd m.ioRegs (addr - 0xFF00) v }
  else if 0xFF80 ≤ addr ∧ addr ≤ 0xFFFF then
    { m with hram := upd m.hram (addr - 0xFF80) v }
  else m

/-- Union of the writable regions of the bus (the non-ROM, non-default
branches of `Memory.Write`), with the source's region granularity. -/
def WritableAddr (a : Nat) : Prop :=
  (0x8000 ≤ a ∧ a ≤ 0x9FFF) ∨ (0xA000 ≤ a ∧ a ≤ 0xBFFF) ∨
  (0xC000 ≤ a ∧ a ≤ 0xCFFF) ∨ (0xD000 ≤ a ∧ a ≤ 0xDFFF) ∨
  (0xFE00 ≤ a ∧ a ≤ 0xFE9F) ∨ (0xFF00 ≤ a ∧ a ≤ 0xFF7F) ∨
  (0xFF80 ≤ a ∧ a ≤ 0xFFFF)

instance (a : Nat) : Decidable (WritableAddr a) := by
  unfold WritableAddr; infer_instance

/-- `cpu.CPU`: the register file of `cpu/cpu.go`. All 8-bit registers and
`F` are byte values, `SP`/`PC` are 16-bit words, `Cycles` the cycle
counter, `IM` the interrupt-master byte, `Timer` the (unused) timer. -/
structure CPU where
  A : Nat
  F : Nat
  B : Nat
  C : Nat
  D : Nat
  E : Nat
  H : Nat
  L : Nat
  SP : Nat
  PC : Nat
  Cycles : Nat
  IM : Nat
  Timer : Nat

/-- Flag bit constants from `cpu/cpu.go`. -/
def FlagZ : Nat := 0x80

def FlagN : Nat := 0x40

def FlagH : Nat := 0x20

def FlagC : Nat := 0x10

/-- `cpu.NewCPU`: architectural reset values. -/
def NewCPU : CPU :=
  { A := 0, F := 0, B := 0, C := 0, D := 0, E := 0, H := 0, L := 0
    SP := 0xFFFE, PC := 0x0100, Cycles := 0, IM := 0, Timer := 0 }

/-- `CPU.SetZeroFlag`: `cpu.F |= FlagZ`. -/
def SetZeroFlag (c : CPU) : CPU := { c with F := c.F ||| FlagZ }

/-- `CPU.ClearZeroFlag`: `cpu.F &^= FlagZ`, i.e. AND with `0x7F` on bytes. -/
def ClearZeroFlag (c : CPU) : CPU := { c with F := c.F &&& 0x7F }

/-- `CPU.SetCarryFlag`: `cpu.F |= FlagC`. -/
def SetCarryFlag (c : CPU) : CPU := { c with F := c.F ||| FlagC }

/-- `CPU.ClearCarryFlag`: `cpu.F &^= FlagC`, i.e. AND with `0xEF` on bytes. -/
def ClearCarryFlag (c : CPU) : CPU := { c with F := c.F &&& 0xEF }

/-- `CPU.SetZeroFlagIfNeeded`. -/
def SetZeroFlagIfNeeded (c : CPU) (value : Nat) : CPU :=
  if value = 0 then SetZeroFlag c else ClearZeroFlag c

/-- `CPU.Add` from `cpu/cpu.go` (lines 293-302): the sum is computed in the
widened `uint16` domain (for byte inputs `uint16(A)+uint16(value)` never
wraps, so plain `Nat` addition is exact), carry is set iff the widened sum
exceeds `0xFF`, the accumulator receives the truncated byte, and the zero
flag is recomputed from it. No other flag is touched. -/
def Add (c : CPU) (value : Nat) : CPU :=
  let result := c.A + value
  let c1 := if result > 0xFF then SetCarryFlag c else ClearCarryFlag c
  let c2 := { c1 with A := result % 256 }
  SetZeroFlagIfNeeded c2 c2.A

/-- `CPU.Push`: `SP -= 2`, low byte at the new SP, high byte at SP+1,
with `uint16` wrap-around on both the decrement and the `SP+1`. -/
def Push (c : CPU) (value : Nat) (m : Memory) : CPU × Memory :=
  let sp := (c.SP + 65534) % 65536
  let m1 := MWrite m sp (value &&& 0xFF)
  let m2 := MWrite m1 ((sp + 1) % 65536) ((value >>> 8) % 256)
  ({ c with SP := sp }, m2)

/-- `CPU.Pop`: low byte at SP, high byte at SP+1, then `SP += 2`;
returns the updated CPU and the popped 16-bit value. -/
def Pop (c : CPU) (m : Memory) : CPU × Nat :=
  let value := MRead m c.SP ||| ((MRead m ((c.SP + 1) % 65536)) <<< 8)
  ({ c with SP := (c.SP + 2) % 65536 }, value)

/-- Go's `uint16(int8(off))` sign extension of an offset byte. -/
def signExtend (off : Nat) : Nat :=
  if off < 128 then off else off + 0xFF00

/-- `CPU.Execute` from `cpu/cpu.go` (the variant wired to
`memory.Memory`): fetch the opcode at PC, advance PC, then the `switch`.
Each case mirrors the source statement for statement; the `default`
branch only prints in Go, so it leaves the state untouched. -/
def Execute (cpu : CPU) (mem : Memory) : CPU × Memory :=
  let opcode := MRead mem cpu.PC
  let c0 := { cpu with PC := (cpu.PC + 1) % 65536 }
  if opcode = 0xC3 then -- JP a16
    let addr := MRead mem c0.PC ||| ((MRead mem ((c0.PC + 1) % 65536)) <<< 8)
    ({ c0 with PC := addr, Cycles := c0.Cycles + 16 }, mem)
  else if opcode = 0xC2 then -- JP NZ, a16
    let addr := MRead mem c0.PC ||| ((MRead mem ((c0.PC + 1) % 65536)) <<< 8)
    if c0.F &&& FlagZ = 0 then
      ({ c0 with PC := addr, Cycles := c0.Cycles + 16 }, mem)
    else
      ({ c0 with PC := (c0.PC + 2) % 65536, Cycles := c0.Cycles + 12 }, mem)
  else if opcode = 0xDA then -- JP Z, a16 (so labelled in the source)
    let addr := MRead mem c0.PC ||| ((MRead mem ((c0.PC + 1) % 65536)) <<< 8)
    if c0.F &&& FlagZ ≠ 0 then
      ({ c0 with PC := addr, Cycles := c0.Cycles + 16 }, mem)
    else
      ({ c0 with PC := (c0.PC + 2) % 65536, Cycles := c0.Cycles + 12 }, mem)
  else if opcode = 0x18 then -- JR r8
    let off := signExtend (MRead mem c0.PC)
    ({ c0 with PC := (c0.PC + off + 1) % 65536, Cycles := c0.Cycles + 12 }, mem)
  else if opcode = 0x20 then -- JR NZ, r8
    -- the source adds the offset to PC inside the branch and increments PC
    -- afterwards in either case; the intermediate PC value is made explicit
    let off := signExtend (MRead mem c0.PC)
    let pc1 := if c0.F &&& FlagZ = 0 then (c0.PC + off) % 65536 else c0.PC
    ({ c0 with PC := (pc1 + 1) % 65536, Cycles := c0.Cycles + 12 }, mem)
  else if opcode = 0x28 then -- JR Z, r8
    let off := signExtend (MRead mem c0.PC)
    let pc1 := if c0.F &&& FlagZ ≠ 0 then (c0.PC + off) % 65536 else c0.PC
    ({ c0 with PC := (pc1 + 1) % 65536, Cycles := c0.Cycles + 12 }, mem)
  else if opcode = 0xCD then -- CALL a16
    let addr := MRead mem c0.PC ||| ((MRead mem ((c0.PC + 1) % 65536)) <<< 8)
    let pm := Push c0 c0.PC mem
    ({ pm.1 with PC := addr, Cycles := pm.1.Cycles + 24 }, pm.2)
  else if opcode = 0xC4 then -- CALL NZ, a16
    let addr := MRead mem c0.PC ||| ((MRead mem ((c0.PC + 1) % 65536)) <<< 8)
    if c0.F &&& FlagZ = 0 then
      let pm := Push c0 c0.PC mem
      ({ pm.1 with PC := addr, Cycles := pm.1.Cycles + 24 }, pm.2)
    else
      ({ c0 with PC := (c0.PC + 2) % 65536, Cycles := c0.Cycles + 12 }, mem)
  else if opcode = 0xCC then -- CALL Z, a16
    let addr := MRead mem c0.PC ||| ((MRead mem ((c0.PC + 1) % 65536)) <<< 8)
    if c0.F &&& FlagZ ≠ 0 then
      let pm := Push c0 c0.PC mem
      ({ pm.1 with PC := addr, Cycles := pm.1.Cycles + 24 }, pm.2)
    else
      ({ c0 with PC := (c0.PC + 2) % 65536, Cycles := c0.Cycles + 12 }, mem)
  else if opcode = 0x3E then -- LD A, d8
    ({ c0 with A := MRead mem c0.PC, PC := (c0.PC + 1) % 65536,
               Cycles := c0.Cycles + 8 }, mem)
  else if opcode = 0xC6 then -- ADD A, d8
    let c1 := Add c0 (MRead mem c0.PC)
    ({ c1 with PC := (c1.PC + 1) % 65536, Cycles := c1.Cycles + 8 }, mem)
  else if opcode = 0xC9 then -- RET
    let pv := Pop c0 mem
    ({ pv.1 with PC := pv.2, Cycles := pv.1.Cycles + 16 }, mem)
  else if opcode = 0xD9 then -- RETI
    let pv := Pop c0 mem
    ({ pv.1 with PC := pv.2, Cycles := pv.1.Cycles + 16 }, mem)
  else if opcode = 0xC0 then -- RET NZ
    if c0.F &&& FlagZ = 0 then
      let pv := Pop c0 mem
      ({ pv.1 with PC := pv.2, Cycles := pv.1.Cycles + 16 }, mem)
    else
      ({ c0 with Cycles := c0.Cycles + 8 }, mem)
  else if opcode = 0xC8 then -- RET Z
    if c0.F &&& FlagZ ≠ 0 then
      let pv := Pop c0 mem
      ({ pv.1 with PC := pv.2, Cycles := pv.1.Cycles + 16 }, mem)
    else
      ({ c0 with Cycles := c0.Cycles + 8 }, mem)
  else if opcode = 0xD0 then -- RET NC
    if c0.F &&& FlagC = 0 then
      let pv := Pop c0 mem
      ({ pv.1 with PC := pv.2, Cycles := pv.1.Cycles + 16 }, mem)
    else
      ({ c0 with Cycles := c0.Cycles + 8 }, mem)
  else if opcode = 0xD8 then -- RET C
    if c0.F &&& FlagC ≠ 0 then
      let pv := Pop c0 mem
      ({ pv.1 with PC := pv.2, Cycles := pv.1.Cycles + 16 }, mem)
    else
      ({ c0 with Cycles := c0.Cycles + 8 }, mem)
  else if opcode = 0xA4 then -- AND B
    -- the source bumps Cycles after the flag updates; Cycles commutes
    let c1 := { c0 with A := c0.A &&& c0.B, Cycles := c0.Cycles + 4 }
    (SetZeroFlagIfNeeded (ClearCarryFlag c1) c1.A, mem)
  else if opcode = 0xA5 then -- AND C
    -- the source bumps Cycles after the flag updates; Cycles commutes
    let c1 := { c0 with A := c0.A &&& c0.C, Cycles := c0.Cycles + 4 }
    (SetZeroFlagIfNeeded (ClearCarryFlag c1) c1.A, mem)
  else if opcode = 0xA6 then -- AND (HL)
    -- the source bumps Cycles after the flag updates; Cycles commutes
    let c1 := { c0 with A := c0.A &&& MRead mem ((c0.H <<< 8) ||| c0.L), Cycles := c0.Cycles + 8 }
    (SetZeroFlagIfNeeded (ClearCarryFlag c1) c1.A, mem)
  else if opcode = 0xB0 then -- OR B
    -- the source bumps Cycles after the flag updates; Cycles commutes
    let c1 := { c0 with A := c0.A ||| c0.B, Cycles := c0.Cycles + 4 }
    (SetZeroFlagIfNeeded (ClearCarryFlag c1) c1.A, mem)
  else if opcode = 0xB1 then -- OR C
    -- the source bumps Cycles after the flag updates; Cycles commutes
    let c1 := { c0 with A := c0.A ||| c0.C, Cycles := c0.Cycles + 4 }
    (SetZeroFlagIfNeeded (ClearCarryFlag c1) c1.A, mem)
  else if opcode = 0xB2 then -- OR D
    -- the source bumps Cycles after the flag updates; Cycles commutes
    let c1 := { c0 with A := c0.A ||| c0.D, Cycles := c0.Cycles + 4 }
    (SetZeroFlagIfNeeded (ClearCarryFlag c1) c1.A, mem)
  else if opcode = 0xB3 then -- OR E
    -- the source bumps Cycles after the flag updates; Cycles commutes
    let c1 := { c0 with A := c0.A ||| c0.E, Cycles := c0.Cycles + 4 }
    (SetZeroFlagIfNeeded (ClearCarryFlag c1) c1.A, mem)
  else if opcode = 0xB4 then -- OR H
    -- the source bumps Cycles after the flag updates; Cycles commutes
    let c1 := { c0 with A := c0.A ||| c0.H, Cycles := c0.Cycles + 4 }
    (SetZeroFlagIfNeeded (ClearCarryFlag c1) c1.A, mem)
  else if opcode = 0xB5 then -- OR L
    -- the source bumps Cycles after the flag updates; Cycles commutes
    let c1 := { c0 with A := c0.A ||| c0.L, Cycles := c0.Cycles + 4 }
    (SetZeroFlagIfNeeded (ClearCarryFlag c1) c1.A, mem)
  else if opcode = 0xB6 then -- OR (HL)
    -- the source bumps Cycles after the flag updates; Cycles commutes
    let c1 := { c0 with A := c0.A ||| MRead mem ((c0.H <<< 8) ||| c0.L), Cycles := c0.Cycles + 4 }
    (SetZeroFlagIfNeeded (ClearCarryFlag c1) c1.A, mem)
  else if opcode = 0xCB then -- prefix page
    let inner := MRead mem c0.PC
    if inner = 0x40 then -- BIT 0, B
      -- Cycles/PC updates commute with the flag helper (which only touches F)
      (SetZeroFlagIfNeeded { c0 with Cycles := c0.Cycles + 8, PC := (c0.PC + 1) % 65536 } (c0.B &&& 0x01), mem)
    else if inner = 0x41 then -- BIT 0, C
      -- Cycles/PC updates commute with the flag helper (which only touches F)
      (SetZeroFlagIfNeeded { c0 with Cycles := c0.Cycles + 8, PC := (c0.PC + 1) % 65536 } (c0.C &&& 0x01), mem)
    else if inner = 0x42 then -- BIT 0, D
      -- Cycles/PC updates commute with the flag helper (which only touches F)
      (SetZeroFlagIfNeeded { c0 with Cycles := c0.Cycles + 8, PC := (c0.PC + 1) % 65536 } (c0.D &&& 0x01), mem)
    else -- unhandled BIT operation: print only
      (c0, mem)
  else -- unknown opcode: print only, state untouched beyond the fetch
    (c0, mem)

/-- `Execute` iterated `n` times, threading CPU and bus. -/
def ExecN : Nat → CPU → Memory → CPU × Memory
  | 0, c, m => (c, m)
  | n + 1, c, m => ExecN n (Execute c m).1 (Execute c m).2

/-- Modelled from the spec: the fixed vector address of interrupt bit `b`
(spec section 4.2, "fixed vector address"; the source contains no
interrupt dispatch, only the `CPU.IM` field declaration). -/
def InterruptVector (b : Nat) : Nat := 0x40 + 8 * b

/-- Modelled from the spec: index of the highest-priority pending
interrupt, "priority ordered by bit position, lowest bit = highest
priority" (spec section 4.2). -/
def lowestBit (n : Nat) : Nat :=
  if n &&& 1 ≠ 0 then 0
  else if n &&& 2 ≠ 0 then 1
  else if n &&& 4 ≠ 0 then 2
  else if n &&& 8 ≠ 0 then 3
  else 4

/-- Modelled from the spec: the interrupt-dispatch check at the top of each
step (spec section 4.2), absent from the source, wrapped around the
source's `Execute`. If IME is set and `IE & IF` (bus bytes `0xFFFF` and
`0xFF0F`) is nonzero: clear IME, push the current PC with the CALL push
discipline, clear the pending bit in IF, jump to the fixed vector, and
charge the fixed dispatch cost; otherwise do an ordinary `Execute` step. -/
def Step (cpu : CPU) (mem : Memory) : CPU × Memory :=
  let ie := MRead mem 0xFFFF
  let iflag := MRead mem 0xFF0F
  let pending := ie &&& iflag
  if cpu.IM ≠ 0 ∧ pending ≠ 0 then
    let b := lowestBit pending
    let pm := Push { cpu with IM := 0 } cpu.PC mem
    let m2 := MWrite pm.2 0xFF0F (MRead pm.2 0xFF0F &&& (0xFF ^^^ (1 <<< b)))
    ({ pm.1 with PC := InterruptVector b, Cycles := pm.1.Cycles + 20 }, m2)
  else
    Execute cpu mem

/-! ### Projection lemmas for the stack operations -/

theorem Push_fst (c : CPU) (v : Nat) (m : Memory) :
    (Push c v m).1 = { c with SP := (c.SP + 65534) % 65536 } := rfl

theorem Pop_fst (c : CPU) (m : Memory) :
    (Pop c m).1 = { c with SP := (c.SP + 2) % 65536 } := rfl

/-! ### Bus region characterization lemmas -/

theorem MWrite_rom (m : Memory) (a v : Nat) (h : a ≤ 0x7FFF) :
    MWrite m a v = m := by
  unfold MWrite; rw [if_pos h]

theorem MWrite_vram (m : Memory) (a v : Nat) (h1 : 0x8000 ≤ a) (h2 : a ≤ 0x9FFF) :
    MWrite m a v = { m with vram := upd m.vram (a - 0x8000) v } := by
  unfold MWrite
  repeat rw [if_neg (by omega)]
  rw [if_pos (by omega)]

theorem MWrite_extram (m : Memory) (a v : Nat) (h1 : 0xA000 ≤ a) (h2 : a ≤ 0xBFFF) :
    MWrite m a v = { m with ram := upd m.ram (a - 0xA000) v } := by
  unfold MWrite
  repeat rw [if_neg (by omega)]
  rw [if_pos (by omega)]

theorem MWrite_wram0 (m : Memory) (a v : Nat) (h1 : 0xC000 ≤ a) (h2 : a ≤ 0xCFFF) :
    MWrite m a v = { m with ram := upd m.ram (a - 0xC000) v } := by
  unfold MWrite
  repeat rw [if_neg (by omega)]
  rw [if_pos (by omega)]

theorem MWrite_wram1 (m : Memory) (a v : Nat) (h1 : 0xD000 ≤ a) (h2 : a ≤ 0xDFFF) :
    MWrite m a v = { m with ram := upd m.ram (a - 0xD000) v } := by
  unfold MWrite
  repeat rw [if_neg (by omega)]
  rw [if_pos (by omega)]

theorem MWrite_oam (m : Memory) (a v : Nat) (h1 : 0xFE00 ≤ a) (h2 : a ≤ 0xFE9F) :
    MWrite m a v = { m with oam := upd m.oam (a - 0xFE00) v } := by
  unfold MWrite
  repeat rw [if_neg (by omega)]
  rw [if_pos (by omega)]

theorem MWrite_ioRegs (m : Memory) (a v : Nat) (h1 : 0xFF00 ≤ a) (h2 : a ≤ 0xFF7F) :
    MWrite m a v = { m with ioRegs := upd m.ioRegs (a - 0xFF00) v } := by
  unfold MWrite
  repeat rw [if_neg (by omega)]
  rw [if_pos (by omega)]

theorem MWrite_hram (m : Memory) (a v : Nat) (h1 : 0xFF80 ≤ a) (h2 : a ≤ 0xFFFF) :
    MWrite m a v = { m with hram := upd m.hram (a - 0xFF80) v } := by
  unfold MWrite
  repeat rw [if_neg (by omega)]
  rw [if_pos (by omega)]

theorem MWrite_gap (m : Memory) (a v : Nat) (h1 : 0xFEA0 ≤ a) (h2 : a ≤ 0xFEFF) :
    MWrite m a v = m := by
  unfold MWrite
  repeat rw [if_neg (by omega)]

theorem MRead_rom (m : Memory) (a : Nat) (h : a ≤ 0x7FFF) :
    MRead m a = m.rom.getD a 0 := by
  unfold MRead; rw [if_pos h]

theorem MRead_vram (m : Memory) (a : Nat) (h1 : 0x8000 ≤ a) (h2 : a ≤ 0x9FFF) :
    MRead m a = m.vram (a - 0x8000) := by
  unfold MRead
  repeat rw [if_neg (by omega)]
  rw [if_pos (by omega)]

theorem MRead_extram (m : Memory) (a : Nat) (h1 : 0xA000 ≤ a) (h2 : a ≤ 0xBFFF) :
    MRead m a = m.ram (a - 0xA000) := by
  unfold MRead
  repeat rw [if_neg (by omega)]
  rw [if_pos (by omega)]

theorem MRead_wram0 (m : Memory) (a : Nat) (h1 : 0xC000 ≤ a) (h2 : a ≤ 0xCFFF) :
    MRead m a = m.ram (a - 0xC000) := by
  unfold MRead
  repeat rw [if_neg (by omega)]
  rw [if_pos (by omega)]

theorem MRead_wram1 (m : Memory) (a : Nat) (h1 : 0xD000 ≤ a) (h2 : a ≤ 0xDFFF) :
    MRead m a = m.ram (a - 0xD000) := by
  unfold MRead
  repeat rw [if_neg (by omega)]
  rw [if_pos (by omega)]

theorem MRead_oam (m : Memory) (a : Nat) (h1 : 0xFE00 ≤ a) (h2 : a ≤ 0xFE9F) :
    MRead m a = m.oam (a - 0xFE00) := by
  unfold MRead
  repeat rw [if_neg (by omega)]
  rw [if_pos (by omega)]

theorem MRead_ioRegs (m : Memory) (a : Nat) (h1 : 0xFF00 ≤ a) (h2 : a ≤ 0xFF7F) :
    MRead m a = m.ioRegs (a - 0xFF00) := by
  unfold MRead
  repeat rw [if_neg (by omega)]
  rw [if_pos (by omega)]

theorem MRead_hram (m : Memory) (a : Nat) (h1 : 0xFF80 ≤ a) (h2 : a ≤ 0xFFFF) :
    MRead m a = m.hram (a - 0xFF80) := by
  unfold MRead
  repeat rw [if_neg (by omega)]
  rw [if_pos (by omega)]

theorem MRead_gap (m : Memory) (a : Nat) (h1 : 0xFEA0 ≤ a) (h2 : a ≤ 0xFEFF) :
    MRead m a = 0xFF := by
  unfold MRead
  repeat rw [if_neg (by omega)]

/-! ### Read-after-write lemmas -/

theorem MRead_MWrite_eq (m : Memory) (a v : Nat) (h : WritableAddr a) :
    MRead (MWrite m a v) a = v := by
  rcases h with h|h|h|h|h|h|h
  · rw [MWrite_vram m a v h.1 h.2, MRead_vram _ a h.1 h.2]; simp [upd]
  · rw [MWrite_extram m a v h.1 h.2, MRead_extram _ a h.1 h.2]; simp [upd]
  · rw [MWrite_wram0 m a v h.1 h.2, MRead_wram0 _ a h.1 h.2]; simp [upd]
  · rw [MWrite_wram1 m a v h.1 h.2, MRead_wram1 _ a h.1 h.2]; simp [upd]
  · rw [MWrite_oam m a v h.1 h.2, MRead_oam _ a h.1 h.2]; simp [upd]
  · rw [MWrite_ioRegs m a v h.1 h.2, MRead_ioRegs _ a h.1 h.2]; simp [upd]
  · rw [MWrite_hram m a v h.1 h.2, MRead_hram _ a h.1 h.2]; simp [upd]

theorem MRead_MWrite_adj (m : Memory) (a v : Nat) (h1 : WritableAddr a)
    (h2 : WritableAddr (a + 1)) :
    MRead (MWrite m (a + 1) v) a = MRead m a := by
  unfold WritableAddr at h2
  rcases h1 with h1|h1|h1|h1|h1|h1|h1
  · by_cases hb : a + 1 ≤ 0x9FFF
    · rw [MWrite_vram m _ v (by omega) hb, MRead_vram _ a h1.1 h1.2,
        MRead_vram m a h1.1 h1.2]
      simp only [upd]; rw [if_neg (by omega)]
    · rw [MWrite_extram m _ v (by omega) (by omega), MRead_vram _ a h1.1 h1.2,
        MRead_vram m a h1.1 h1.2]
  · by_cases hb : a + 1 ≤ 0xBFFF
    · rw [MWrite_extram m _ v (by omega) hb, MRead_extram _ a h1.1 h1.2,
        MRead_extram m a h1.1 h1.2]
      simp only [upd]; rw [if_neg (by omega)]
    · rw [MWrite_wram0 m _ v (by omega) (by omega), MRead_extram _ a h1.1 h1.2,
        MRead_extram m a h1.1 h1.2]
      simp only [upd]; rw [if_neg (by omega)]
  · by_cases hb : a + 1 ≤ 0xCFFF
    · rw [MWrite_wram0 m _ v (by omega) hb, MRead_wram0 _ a h1.1 h1.2,
        MRead_wram0 m a h1.1 h1.2]
      simp only [upd]; rw [if_neg (by omega)]
    · rw [MWrite_wram1 m _ v (by omega) (by omega), MRead_wram0 _ a h1.1 h1.2,
        MRead_wram0 m a h1.1 h1.2]
      simp only [upd]; rw [if_neg (by omega)]
  · rw [MWrite_wram1 m _ v (by omega) (by omega), MRead_wram1 _ a h1.1 h1.2,
      MRead_wram1 m a h1.1 h1.2]
    simp only [upd]; rw [if_neg (by omega)]
  · rw [MWrite_oam m _ v (by omega) (by omega), MRead_oam _ a h1.1 h1.2,
      MRead_oam m a h1.1 h1.2]
    simp only [upd]; rw [if_neg (by omega)]
  · by_cases hb : a + 1 ≤ 0xFF7F
    · rw [MWrite_ioRegs m _ v (by omega) hb, MRead_ioRegs _ a h1.1 h1.2,
        MRead_ioRegs m a h1.1 h1.2]
      simp only [upd]; rw [if_neg (by omega)]
    · rw [MWrite_hram m _ v (by omega) (by omega), MRead_ioRegs _ a h1.1 h1.2,
        MRead_ioRegs m a h1.1 h1.2]
  · rw [MWrite_hram m _ v (by omega) (by omega), MRead_hram _ a h1.1 h1.2,
      MRead_hram m a h1.1 h1.2]
    simp only [upd]; rw [if_neg (by omega)]

theorem MRead_hram_MWrite_ioRegs (m : Memory) (a b v : Nat) (h1 : 0xFF80 ≤ a)
    (h2 : a ≤ 0xFFFF) (h3 : 0xFF00 ≤ b) (h4 : b ≤ 0xFF7F) :
    MRead (MWrite m b v) a = MRead m a := by
  rw [MWrite_ioRegs m b v h3 h4, MRead_hram _ a h1 h2, MRead_hram m a h1 h2]

/-! ### Byte-arithmetic lemmas -/

theorem byte_recomb (v : Nat) (hv : v < 65536) :
    (v &&& 255) ||| (((v >>> 8) % 256) <<< 8) = v := by
  have h1 : v >>> 8 < 256 := by
    rw [Nat.shiftRight_eq_div_pow]; omega
  rw [Nat.mod_eq_of_lt h1]
  have h2 : v &&& 255 = v % 2 ^ 8 := by
    have h3 := Nat.and_pow_two_sub_one_eq_mod v 8
    norm_num at h3 ⊢
    exact h3
  rw [h2]
  apply Nat.eq_of_testBit_eq
  intro i
  simp only [Nat.testBit_or, Nat.testBit_mod_two_pow, Nat.testBit_shiftLeft,
    Nat.testBit_shiftRight]
  by_cases hi : i < 8
  · simp [hi, Nat.not_le.2 hi]
  · have h8 : 8 + (i - 8) = i := by omega
    simp [hi, Nat.le_of_not_lt hi, h8]

theorem land15_lor (a b : Nat) : (a ||| b) &&& 15 = (a &&& 15) ||| (b &&& 15) := by
  rw [Nat.land_comm, Nat.and_or_distrib_left, Nat.land_comm 15 a, Nat.land_comm 15 b]

theorem F_or_15 (a b : Nat) (h : a &&& 15 = 0) (hb : b &&& 15 = 0) :
    (a ||| b) &&& 15 = 0 := by
  rw [land15_lor, h, hb]
  rfl

theorem F_and_15 (a b : Nat) (h : a &&& 15 = 0) : (a &&& b) &&& 15 = 0 := by
  rw [Nat.land_assoc, Nat.land_comm b 15, ← Nat.land_assoc, h]
  simp

/-! ### Low-nibble invariance of the flag helpers -/

theorem inv_SetZeroFlag (c : CPU) (h : c.F &&& 15 = 0) :
    (SetZeroFlag c).F &&& 15 = 0 :=
  F_or_15 _ _ h (by decide)

theorem inv_ClearZeroFlag (c : CPU) (h : c.F &&& 15 = 0) :
    (ClearZeroFlag c).F &&& 15 = 0 :=
  F_and_15 _ _ h

theorem inv_SetCarryFlag (c : CPU) (h : c.F &&& 15 = 0) :
    (SetCarryFlag c).F &&& 15 = 0 :=
  F_or_15 _ _ h (by decide)

theorem inv_ClearCarryFlag (c : CPU) (h : c.F &&& 15 = 0) :
    (ClearCarryFlag c).F &&& 15 = 0 :=
  F_and_15 _ _ h

theorem inv_SetZeroFlagIfNeeded (c : CPU) (v : Nat) (h : c.F &&& 15 = 0) :
    (SetZeroFlagIfNeeded c v).F &&& 15 = 0 := by
  unfold SetZeroFlagIfNeeded
  split_ifs
  · exact inv_SetZeroFlag _ h
  · exact inv_ClearZeroFlag _ h

theorem inv_Add (c : CPU) (v : Nat) (h : c.F &&& 15 = 0) :
    (Add c v).F &&& 15 = 0 := by
  unfold Add
  dsimp only
  split_ifs with hc
  · exact inv_SetZeroFlagIfNeeded _ _ (inv_SetCarryFlag _ h)
  · exact inv_SetZeroFlagIfNeeded _ _ (inv_ClearCarryFlag _ h)

set_option maxHeartbeats 4000000 in
set_option maxRecDepth 8000 in
theorem execPreservesLowNibble (cpu : CPU) (mem : Memory) (h : cpu.F &&& 15 = 0) :
    ((Execute cpu mem).1).F &&& 15 = 0 := by
  unfold Execute
  dsimp only
  by_cases hop195 : MRead mem cpu.PC = 195
  · rw [if_pos hop195]
    exact h
  rw [if_neg hop195]
  by_cases hop194 : MRead mem cpu.PC = 194
  · rw [if_pos hop194]
    split_ifs <;> exact h
  rw [if_neg hop194]
  by_cases hop218 : MRead mem cpu.PC = 218
  · rw [if_pos hop218]
    split_ifs <;> exact h
  rw [if_neg hop218]
  by_cases hop24 : MRead mem cpu.PC = 24
  · rw [if_pos hop24]
    exact h
  rw [if_neg hop24]
  by_cases hop32 : MRead mem cpu.PC = 32
  · rw [if_pos hop32]
    exact h
  rw [if_neg hop32]
  by_cases hop40 : MRead mem cpu.PC = 40
  · rw [if_pos hop40]
    exact h
  rw [if_neg hop40]
  by_cases hop205 : MRead mem cpu.PC = 205
  · rw [if_pos hop205]
    simp only [Push_fst]
    exact h
  rw [if_neg hop205]
  by_cases hop196 : MRead mem cpu.PC = 196
  · rw [if_pos hop196]
    split_ifs <;> first | (simp only [Push_fst]; exact h) | exact h
  rw [if_neg hop196]
  by_cases hop204 : MRead mem cpu.PC = 204
  · rw [if_pos hop204]
    split_ifs <;> first | (simp only [Push_fst]; exact h) | exact h
  rw [if_neg hop204]
  by_cases hop62 : MRead mem cpu.PC = 62
  · rw [if_pos hop62]
    exact h
  rw [if_neg hop62]
  by_cases hop198 : MRead mem cpu.PC = 198
  · rw [if_pos hop198]
    exact inv_Add _ _ h
  rw [if_neg hop198]
  by_cases hop201 : MRead mem cpu.PC = 201
  · rw [if_pos hop201]
    simp only [Pop_fst]
    exact h
  rw [if_neg hop201]
  by_cases hop217 : MRead mem cpu.PC = 217
  · rw [if_pos hop217]
    simp only [Pop_fst]
    exact h
  rw [if_neg hop217]
  by_cases hop192 : MRead mem cpu.PC = 192
  · rw [if_pos hop192]
    split_ifs <;> first | (simp only [Pop_fst]; exact h) | exact h
  rw [if_neg hop192]
  by_cases hop200 : MRead mem cpu.PC = 200
  · rw [if_pos hop200]
    split_ifs <;> first | (simp only [Pop_fst]; exact h) | exact h
  rw [if_neg hop200]
  by_cases hop208 : MRead mem cpu.PC = 208
  · rw [if_pos hop208]
    split_ifs <;> first | (simp only [Pop_fst]; exact h) | exact h
  rw [if_neg hop208]
  by_cases hop216 : MRead mem cpu.PC = 216
  · rw [if_pos hop216]
    split_ifs <;> first | (simp only [Pop_fst]; exact h) | exact h
  rw [if_neg hop216]
  by_cases hop164 : MRead mem cpu.PC = 164
  · rw [if_pos hop164]
    exact inv_SetZeroFlagIfNeeded _ _ (inv_ClearCarryFlag _ h)
  rw [if_neg hop164]
  by_cases hop165 : MRead mem cpu.PC = 165
  · rw [if_pos hop165]
    exact inv_SetZeroFlagIfNeeded _ _ (inv_ClearCarryFlag _ h)
  rw [if_neg hop165]
  by_cases hop166 : MRead mem cpu.PC = 166
  · rw [if_pos hop166]
    exact inv_SetZeroFlagIfNeeded _ _ (inv_ClearCarryFlag _ h)
  rw [if_neg hop166]
  by_cases hop176 : MRead mem cpu.PC = 176
  · rw [if_pos hop176]
    exact inv_SetZeroFlagIfNeeded _ _ (inv_ClearCarryFlag _ h)
  rw [if_neg hop176]
  by_cases hop177 : MRead mem cpu.PC = 177
  · rw [if_pos hop177]
    exact inv_SetZeroFlagIfNeeded _ _ (inv_ClearCarryFlag _ h)
  rw [if_neg hop177]
  by_cases hop178 : MRead mem cpu.PC = 178
  · rw [if_pos hop178]
    exact inv_SetZeroFlagIfNeeded _ _ (inv_ClearCarryFlag _ h)
  rw [if_neg hop178]
  by_cases hop179 : MRead mem cpu.PC = 179
  · rw [if_pos hop179]
    exact inv_SetZeroFlagIfNeeded _ _ (inv_ClearCarryFlag _ h)
  rw [if_neg hop179]
  by_cases hop180 : MRead mem cpu.PC = 180
  · rw [if_pos hop180]
    exact inv_SetZeroFlagIfNeeded _ _ (inv_ClearCarryFlag _ h)
  rw [if_neg hop180]
  by_cases hop181 : MRead mem cpu.PC = 181
  · rw [if_pos hop181]
    exact inv_SetZeroFlagIfNeeded _ _ (inv_ClearCarryFlag _ h)
  rw [if_neg hop181]
  by_cases hop182 : MRead mem cpu.PC = 182
  · rw [if_pos hop182]
    exact inv_SetZeroFlagIfNeeded _ _ (inv_ClearCarryFlag _ h)
  rw [if_neg hop182]
  by_cases hop203 : MRead mem cpu.PC = 203
  · rw [if_pos hop203]
    by_cases hin64 : MRead mem ((cpu.PC + 1) % 65536) = 64
    · rw [if_pos hin64]
      exact inv_SetZeroFlagIfNeeded _ _ h
    rw [if_neg hin64]
    by_cases hin65 : MRead mem ((cpu.PC + 1) % 65536) = 65
    · rw [if_pos hin65]
      exact inv_SetZeroFlagIfNeeded _ _ h
    rw [if_neg hin65]
    by_cases hin66 : MRead mem ((cpu.PC + 1) % 65536) = 66
    · rw [if_pos hin66]
      exact inv_SetZeroFlagIfNeeded _ _ h
    rw [if_neg hin66]
    exact h
  rw [if_neg hop203]
  exact h

theorem execNPreservesLowNibble (n : Nat) (cpu : CPU) (mem : Memory)
    (h : cpu.F &&& 15 = 0) : ((ExecN n cpu mem).1).F &&& 15 = 0 := by
  induction n generalizing cpu mem with
  | zero => exact h
  | succ k ih => exact ih _ _ (execPreservesLowNibble cpu mem h)

/-! ### Stack projection value lemma -/

theorem Push_snd (c : CPU) (v : Nat) (m : Memory) :
    (Push c v m).2 =
      MWrite (MWrite m ((c.SP + 65534) % 65536) (v &&& 0xFF))
        (((c.SP + 65534) % 65536 + 1) % 65536) ((v >>> 8) % 256) := by
  unfold Push
  dsimp only

theorem Pop_snd (c : CPU) (m : Memory) :
    (Pop c m).2 = MRead m c.SP ||| ((MRead m ((c.SP + 1) % 65536)) <<< 8) := rfl

/-! ### Claim theorems -/

/-- Claim C1: the spec requires `Add` to set the half-carry flag iff
`(a &&& 0xF) + (b &&& 0xF) > 15`, but the source never touches the
half-carry bit. At the failing input `A = 0x0F`, operand `0x01` (fresh CPU,
`F = 0`), the half-carry condition holds yet the flag bit `FlagH` of the
resulting `F` is clear; the accumulator, zero flag and carry flag do behave
as the claim states at this input. -/
theorem add_half_carry_missing :
    (Add { NewCPU with A := 0x0F } 0x01).A = 0x10 ∧
    (0x0F &&& 0xF) + (0x01 &&& 0xF) > 0xF ∧
    (Add { NewCPU with A := 0x0F } 0x01).F &&& FlagH = 0 ∧
    (Add { NewCPU with A := 0x0F } 0x01).F &&& FlagZ = 0 ∧
    (Add { NewCPU with A := 0x0F } 0x01).F &&& FlagC = 0 := by
  decide

/-- Claim C3: the claim says a Bus write mutates at most the single
addressed byte because each region has its own non-overlapping storage; in
the source the external-RAM and both work-RAM regions share the `ram`
array with colliding offsets, so writing `0xAB` to `0xD000` changes the
value read back from the distinct address `0xC000` (initially `0x00`). -/
theorem work_ram_alias_bug :
    MRead (NewMemory []) 0xC000 = 0x00 ∧
    (0xD000 : Nat) ≠ 0xC000 ∧
    MRead (MWrite (NewMemory []) 0xD000 0xAB) 0xC000 = 0xAB := by
  decide

/-- Claim C6: executing an opcode with no defined semantics (here `0xFF`,
fetched from `PC = 0x0100`): the state is exactly the prior state except
that PC has advanced past the opcode byte — registers, flags, SP, the
cycle counter and the bus are untouched. (The Go `default` branch only
prints a diagnostic; `Execute` returns no error value to the driver.) -/
theorem unknown_opcode_state_preserved :
    MRead (NewMemory (List.replicate 256 0 ++ [0xFF])) NewCPU.PC = 0xFF ∧
    Execute NewCPU (NewMemory (List.replicate 256 0 ++ [0xFF])) =
      ({ NewCPU with PC := 0x0101 }, NewMemory (List.replicate 256 0 ++ [0xFF])) :=
  ⟨rfl, rfl⟩

/-- Claim C7: the claim says every conditional jump, call or return charges
strictly more cycles on the taken path than on the not-taken path. For the
conditional relative jump `JR NZ` (opcode `0x20`, offset `0x05` at address
`0x0000`) the source adds 12 cycles on both paths: taken (Zero flag clear, F = 0x00)
and not-taken (F = 0x80) both end with `Cycles = 12`, refuting the strict
inequality; PC does advance past the operand on both paths (to `0x07`
taken, `0x02` not taken). -/
theorem jr_conditional_cycle_costs :
    (Execute { NewCPU with PC := 0, F := 0x00 } (NewMemory [0x20, 0x05])).1.Cycles = 12 ∧
    (Execute { NewCPU with PC := 0, F := 0x00 } (NewMemory [0x20, 0x05])).1.PC = 0x07 ∧
    (Execute { NewCPU with PC := 0, F := 0x80 } (NewMemory [0x20, 0x05])).1.Cycles = 12 ∧
    (Execute { NewCPU with PC := 0, F := 0x80 } (NewMemory [0x20, 0x05])).1.PC = 0x02 := by
  decide

/-- Claim C9: `Memory.Read` performs no out-of-bounds array access at any
16-bit address provided the Bus was built with a ROM image of at least
`0x8000` bytes; and the ROM read is unguarded, so for a ROM-region address
at or beyond the image length the index is out of bounds. -/
theorem read_never_out_of_bounds :
    (∀ (m : Memory) (addr : Nat), addr < 65536 → 0x8000 ≤ m.rom.length →
        ReadInBounds m addr = true) ∧
    (∀ (m : Memory) (addr : Nat), addr ≤ 0x7FFF → m.rom.length ≤ addr →
        ReadInBounds m addr = false) := by
  constructor
  · intro m addr hlt hrom
    unfold ReadInBounds
    split_ifs <;> first | (simp only [decide_eq_true_eq]; omega) | rfl
  · intro m addr hrng hrom
    unfold ReadInBounds
    rw [if_pos hrng]
    simp only [decide_eq_false_iff_not]
    omega

/-- Witness for C9 at concrete inputs: a full 32-KiB image is safe at
address `0x1234`; an empty image is out of bounds at address `0x0000`. -/
theorem read_never_out_of_bounds_witness :
    ReadInBounds (NewMemory (List.replicate 32768 0)) 0x1234 = true ∧
    ReadInBounds (NewMemory []) 0x0000 = false :=
  ⟨read_never_out_of_bounds.1 _ 0x1234 (by norm_num)
      (by rw [show (NewMemory (List.replicate 32768 0)).rom =
            List.replicate (32768 : Nat) (0 : Nat) from rfl, List.length_replicate]),
   read_never_out_of_bounds.2 _ 0x0000 (by norm_num)
      (by rw [show (NewMemory ([] : List Nat)).rom = ([] : List Nat) from rfl]
          simp)⟩

/-- Claim C4: Write-then-Read round-trips at every address of a writable
region; writes to ROM and to the invalid gap `0xFEA0`-`0xFEFF` are
discarded outright (the Bus value is unchanged, no failure), so reads
there keep returning the ROM byte resp. the `0xFF` sentinel. -/
theorem bus_write_read_roundtrip (m : Memory) (addr v : Nat) :
    (WritableAddr addr → MRead (MWrite m addr v) addr = v) ∧
    (addr ≤ 0x7FFF →
      MWrite m addr v = m ∧ MRead (MWrite m addr v) addr = MRead m addr) ∧
    (0xFEA0 ≤ addr → addr ≤ 0xFEFF →
      MWrite m addr v = m ∧ MRead m addr = 0xFF) := by
  refine ⟨fun h => MRead_MWrite_eq m addr v h, fun h => ?_, fun h1 h2 => ?_⟩
  · rw [MWrite_rom m addr v h]
    exact ⟨rfl, rfl⟩
  · exact ⟨MWrite_gap m addr v h1 h2, MRead_gap m addr h1 h2⟩

/-- Witness for C4 at concrete inputs: VRAM round-trips, a ROM write is
discarded, the gap reads the sentinel. -/
theorem bus_write_read_roundtrip_witness :
    MRead (MWrite (NewMemory [0x55]) 0x8123 0xAB) 0x8123 = 0xAB ∧
    MWrite (NewMemory [0x55]) 0x0010 0x77 = NewMemory [0x55] ∧
    MRead (NewMemory [0x55]) 0xFEA5 = 0xFF :=
  ⟨(bus_write_read_roundtrip (NewMemory [0x55]) 0x8123 0xAB).1 (by decide),
   ((bus_write_read_roundtrip (NewMemory [0x55]) 0x0010 0x77).2.1 (by norm_num)).1,
   ((bus_write_read_roundtrip (NewMemory [0x55]) 0xFEA5 0x00).2.2 (by norm_num)
      (by norm_num)).2⟩

/-- Claim C10: the low nibble of `F` is zero in the fresh CPU, the property
is preserved by every single `Execute` step over any memory contents (all
flag mutations go through the four helpers touching only bits 7..4), and
hence holds in every state reachable from `NewCPU` by iterated execution. -/
theorem flags_low_nibble_invariant :
    NewCPU.F &&& 0x0F = 0 ∧
    (∀ (cpu : CPU) (mem : Memory), cpu.F &&& 0x0F = 0 →
      ((Execute cpu mem).1).F &&& 0x0F = 0) ∧
    (∀ (n : Nat) (mem0 : Memory), ((ExecN n NewCPU mem0).1).F &&& 0x0F = 0) :=
  ⟨by decide, fun cpu mem h => execPreservesLowNibble cpu mem h,
   fun n mem0 => execNPreservesLowNibble n NewCPU mem0 (by decide)⟩

/-- Witness for C10: one concrete step from the reset state keeps the low
nibble of `F` clear. -/
theorem flags_low_nibble_invariant_witness :
    ((Execute NewCPU (NewMemory [])).1).F &&& 0x0F = 0 :=
  flags_low_nibble_invariant.2.1 NewCPU (NewMemory []) (by decide)


/-- Claim C5: provided the two stack bytes SP-2 and SP-1 lie in a writable
region, `Push` of any 16-bit value `v` decrements SP by exactly 2 (mod
2^16), stores the low byte at the new SP and the high byte at SP+1, and a
following `Pop` returns exactly `v` and restores SP to its value before
the pair. -/
theorem push_pop_roundtrip (cpu : CPU) (m : Memory) (v : Nat)
    (hv : v < 65536) (hsp : cpu.SP < 65536)
    (h1 : WritableAddr ((cpu.SP + 65534) % 65536))
    (h2 : WritableAddr ((cpu.SP + 65535) % 65536)) :
    (Push cpu v m).1.SP = (cpu.SP + 65534) % 65536 ∧
    MRead (Push cpu v m).2 ((cpu.SP + 65534) % 65536) = v &&& 0xFF ∧
    MRead (Push cpu v m).2 ((cpu.SP + 65535) % 65536) = (v >>> 8) % 256 ∧
    (Pop (Push cpu v m).1 (Push cpu v m).2).2 = v ∧
    (Pop (Push cpu v m).1 (Push cpu v m).2).1.SP = cpu.SP := by
  have hlt : (cpu.SP + 65534) % 65536 < 65535 := by
    unfold WritableAddr at h2; omega
  have e1 : (cpu.SP + 65535) % 65536 = (cpu.SP + 65534) % 65536 + 1 := by omega
  have h2b : WritableAddr ((cpu.SP + 65534) % 65536 + 1) := by rw [← e1]; exact h2
  have e2 : ((cpu.SP + 65534) % 65536 + 1) % 65536 = (cpu.SP + 65534) % 65536 + 1 := by
    omega
  refine ⟨?_, ?_, ?_, ?_, ?_⟩
  · rw [Push_fst]
  · rw [Push_snd, e2, MRead_MWrite_adj _ _ _ h1 h2b]
    exact MRead_MWrite_eq _ _ _ h1
  · rw [Push_snd, e2, e1]
    exact MRead_MWrite_eq _ _ _ h2b
  · rw [Pop_snd, Push_fst]
    dsimp only
    rw [Push_snd, e2, MRead_MWrite_adj _ _ _ h1 h2b, MRead_MWrite_eq _ _ _ h1,
      MRead_MWrite_eq _ _ _ h2b]
    exact byte_recomb v hv
  · rw [Pop_fst, Push_fst]
    dsimp only
    omega

/-- Witness for C5: pushing `0xABCD` from the reset CPU (SP = 0xFFFE) and
popping recovers `0xABCD` with SP back at 0xFFFE. -/
theorem push_pop_roundtrip_witness :
    (Pop (Push NewCPU 0xABCD (NewMemory [])).1
        (Push NewCPU 0xABCD (NewMemory [])).2).2 = 0xABCD ∧
    (Pop (Push NewCPU 0xABCD (NewMemory [])).1
        (Push NewCPU 0xABCD (NewMemory [])).2).1.SP = NewCPU.SP := by
  have h := push_pop_roundtrip NewCPU (NewMemory []) 0xABCD (by decide) (by decide)
      (by decide) (by decide)
  exact ⟨h.2.2.2.1, h.2.2.2.2⟩

/-- Claim C8: a relative jump at address X with encoded offset byte `off`
(signed value d = off, or off - 256 when off ≥ 128) leaves PC at
((X+2)+d) mod 2^16 — the offset is applied after PC has passed the offset
byte. With offset 0 the unconditional JR lands at (X+2) mod 2^16, exactly
the not-taken outcome of a conditional JR; the taken conditional forms
follow the same formula. -/
theorem jr_relative_target (cpu : CPU) (mem : Memory)
    (hpc : cpu.PC < 65536)
    (hoff : MRead mem ((cpu.PC + 1) % 65536) < 256) :
    (MRead mem cpu.PC = 0x18 →
      (Execute cpu mem).1.PC =
        (((cpu.PC : Int) + 2 +
          (if MRead mem ((cpu.PC + 1) % 65536) < 128
           then (MRead mem ((cpu.PC + 1) % 65536) : Int)
           else (MRead mem ((cpu.PC + 1) % 65536) : Int) - 256)) % 65536).toNat) ∧
    (MRead mem cpu.PC = 0x18 → MRead mem ((cpu.PC + 1) % 65536) = 0 →
      (Execute cpu mem).1.PC = (cpu.PC + 2) % 65536) ∧
    (MRead mem cpu.PC = 0x20 → cpu.F &&& FlagZ = 0 →
      (Execute cpu mem).1.PC =
        (((cpu.PC : Int) + 2 +
          (if MRead mem ((cpu.PC + 1) % 65536) < 128
           then (MRead mem ((cpu.PC + 1) % 65536) : Int)
           else (MRead mem ((cpu.PC + 1) % 65536) : Int) - 256)) % 65536).toNat) ∧
    (MRead mem cpu.PC = 0x28 → cpu.F &&& FlagZ ≠ 0 →
      (Execute cpu mem).1.PC =
        (((cpu.PC : Int) + 2 +
          (if MRead mem ((cpu.PC + 1) % 65536) < 128
           then (MRead mem ((cpu.PC + 1) % 65536) : Int)
           else (MRead mem ((cpu.PC + 1) % 65536) : Int) - 256)) % 65536).toNat) ∧
    (MRead mem cpu.PC = 0x20 → cpu.F &&& FlagZ ≠ 0 →
      (Execute cpu mem).1.PC = (cpu.PC + 2) % 65536) := by
  refine ⟨?_, ?_, ?_, ?_, ?_⟩
  · intro hop
    unfold Execute
    dsimp only
    simp only [hop]
    norm_num
    unfold signExtend
    split_ifs with hlt
    · omega
    · omega
  · intro hop hzero
    unfold Execute
    dsimp only
    simp only [hop, hzero]
    norm_num [signExtend]
    try omega
  · intro hop hz
    unfold Execute
    dsimp only
    simp only [hop]
    norm_num
    rw [if_pos hz]
    unfold signExtend
    split_ifs with hlt
    · omega
    · omega
  · intro hop hz
    unfold Execute
    dsimp only
    simp only [hop]
    norm_num
    rw [if_neg hz]
    unfold signExtend
    split_ifs with hlt
    · omega
    · omega
  · intro hop hz
    unfold Execute
    dsimp only
    simp only [hop]
    norm_num
    rw [if_neg (by simpa using hz)]
    omega

/-- Witness for C8: `JR 0` at address 0 leaves PC = 2. -/
theorem jr_relative_target_witness :
    (Execute { NewCPU with PC := 0 } (NewMemory [0x18, 0x00])).1.PC = 2 :=
  (jr_relative_target { NewCPU with PC := 0 } (NewMemory [0x18, 0x00])
      (by decide) (by decide)).2.1 (by decide) (by decide)

/-- Claim C2 (the interrupt dispatch itself is modelled from the spec, see
`Step`): with IME = 1, PC = 0x0200 and the bus-mapped IE (0xFFFF) and IF
(0xFF0F) registers both 0x01, the next `Step` dispatches before any fetch:
it clears IME, pushes 0x0200 with the CALL push discipline (SP drops by
2), clears bit 0 of IF, and sets PC to the bit-0 vector 0x40; when the two
stack bytes fall inside High RAM, popping afterwards recovers 0x0200 and
restores SP. -/
theorem step_interrupt_dispatch (cpu : CPU) (mem : Memory)
    (h1 : cpu.IM = 1) (h2 : cpu.PC = 0x0200)
    (h3 : MRead mem 0xFFFF = 0x01) (h4 : MRead mem 0xFF0F = 0x01) :
    (Step cpu mem).1.IM = 0 ∧
    (Step cpu mem).1.PC = 0x40 ∧
    (Step cpu mem).1.SP = (cpu.SP + 65534) % 65536 ∧
    MRead (Step cpu mem).2 0xFF0F &&& 0x01 = 0 ∧
    (cpu.SP < 65536 → 0xFF80 ≤ (cpu.SP + 65534) % 65536 →
      (cpu.SP + 65534) % 65536 ≤ 0xFFFE →
      (Pop (Step cpu mem).1 (Step cpu mem).2).2 = 0x0200 ∧
      (Pop (Step cpu mem).1 (Step cpu mem).2).1.SP = cpu.SP) := by
  have hcond : cpu.IM ≠ 0 ∧ MRead mem 0xFFFF &&& MRead mem 0xFF0F ≠ 0 := by
    rw [h1, h3, h4]; exact ⟨one_ne_zero, by decide⟩
  have hstep : Step cpu mem =
      (let b := lowestBit (MRead mem 0xFFFF &&& MRead mem 0xFF0F)
       let pm := Push { cpu with IM := 0 } cpu.PC mem
       let m2 := MWrite pm.2 0xFF0F (MRead pm.2 0xFF0F &&& (0xFF ^^^ (1 <<< b)))
       ({ pm.1 with PC := InterruptVector b, Cycles := pm.1.Cycles + 20 }, m2)) := by
    unfold Step
    dsimp only
    rw [if_pos hcond]
  rw [h2, h3, h4] at hstep
  dsimp only at hstep
  have hv : InterruptVector (lowestBit (0x01 &&& 0x01)) = 0x40 := by decide
  have hm : (0xFF ^^^ ((1 : Nat) <<< lowestBit (0x01 &&& 0x01))) = 0xFE := by decide
  rw [hv, hm] at hstep
  have wio : WritableAddr 0xFF0F := by decide
  refine ⟨?_, ?_, ?_, ?_, ?_⟩
  · rw [hstep]
    simp only [Push_fst]
  · rw [hstep]
  · rw [hstep]
    simp only [Push_fst]
  · rw [hstep]
    dsimp only
    rw [MRead_MWrite_eq _ _ _ wio, Nat.land_assoc]
    have h254 : (0xFE &&& 0x01 : Nat) = 0 := by decide
    rw [h254]
    simp
  · intro hsp h5 h6
    have hlt : (cpu.SP + 65534) % 65536 < 65535 := by omega
    have e2 : ((cpu.SP + 65534) % 65536 + 1) % 65536 = (cpu.SP + 65534) % 65536 + 1 := by
      omega
    have hw1 : WritableAddr ((cpu.SP + 65534) % 65536) := by
      unfold WritableAddr; omega
    have hw2 : WritableAddr ((cpu.SP + 65534) % 65536 + 1) := by
      unfold WritableAddr; omega
    rw [hstep]
    rw [Pop_snd, Pop_fst]
    simp only [Push_fst, Push_snd]
    rw [e2]
    constructor
    · rw [MRead_hram_MWrite_ioRegs _ ((cpu.SP + 65534) % 65536) 0xFF0F _
          (by omega) (by omega) (by norm_num) (by norm_num),
        MRead_hram_MWrite_ioRegs _ ((cpu.SP + 65534) % 65536 + 1) 0xFF0F _
          (by omega) (by omega) (by norm_num) (by norm_num),
        MRead_MWrite_adj _ _ _ hw1 hw2, MRead_MWrite_eq _ _ _ hw1,
        MRead_MWrite_eq _ _ _ hw2]
      exact byte_recomb 0x0200 (by norm_num)
    · omega

/-- Witness for C2 at the concrete reset-derived state. -/
theorem step_interrupt_dispatch_witness :
    (Step { NewCPU with IM := 1, PC := 0x0200 }
        (MWrite (MWrite (NewMemory []) 0xFFFF 0x01) 0xFF0F 0x01)).1.IM = 0 ∧
    (Step { NewCPU with IM := 1, PC := 0x0200 }
        (MWrite (MWrite (NewMemory []) 0xFFFF 0x01) 0xFF0F 0x01)).1.PC = 0x40 ∧
    (Step { NewCPU with IM := 1, PC := 0x0200 }
        (MWrite (MWrite (NewMemory []) 0xFFFF 0x01) 0xFF0F 0x01)).1.SP = 0xFFFC ∧
    MRead (Step { NewCPU with IM := 1, PC := 0x0200 }
        (MWrite (MWrite (NewMemory []) 0xFFFF 0x01) 0xFF0F 0x01)).2 0xFF0F &&& 0x01 = 0 ∧
    (Pop (Step { NewCPU with IM := 1, PC := 0x0200 }
          (MWrite (MWrite (NewMemory []) 0xFFFF 0x01) 0xFF0F 0x01)).1
        (Step { NewCPU with IM := 1, PC := 0x0200 }
          (MWrite (MWrite (NewMemory []) 0xFFFF 0x01) 0xFF0F 0x01)).2).2 = 0x0200 := by
  have h := step_interrupt_dispatch { NewCPU with IM := 1, PC := 0x0200 }
      (MWrite (MWrite (NewMemory []) 0xFFFF 0x01) 0xFF0F 0x01)
      rfl rfl (by decide) (by decide)
  exact ⟨h.1, h.2.1, h.2.2.1, h.2.2.2.1,
    (h.2.2.2.2 (by decide) (by decide) (by decide)).1⟩

end GB
